import Mathlib

/-!
Verification development for the `mapConservativeFields` utility
(`src/mapConservativeFields/mapConservativeFields.C`).

The harness is shallowly embedded: OpenFOAM scalars become `ℝ`, vectors
become a three-component structure `V3`, meshes carry cell volumes, cell
centroids and per-patch boundary-face centroids, and geometric fields carry
an interior value list, per-patch boundary value lists and the
boundary-condition type string they were allocated with.  The external
conservative mapper (`conservativeMeshToMesh::interpolate`) is out of scope
per the spec and enters as an opaque function parameter.  Fatal
`FatalErrorIn ... abort` paths are embedded as `Except.error`; the one
unguarded floating-point division (the COSINE_HILL_2D gradient at radius
zero) is embedded as an `Option` whose `none` marks the division fault.
-/

noncomputable section

namespace MapCons

/-- Three-component vector, mirroring Foam `vector` with components x, y, z. -/
structure V3 where
  vx : ℝ
  vy : ℝ
  vz : ℝ

/-- Componentwise subtraction of Foam vectors. -/
def V3.sub (a b : V3) : V3 :=
  ⟨a.vx - b.vx, a.vy - b.vy, a.vz - b.vz⟩

/-- Scalar multiplication of a Foam vector, `s * vector(...)`. -/
def V3.smul (c : ℝ) (v : V3) : V3 :=
  ⟨c * v.vx, c * v.vy, c * v.vz⟩

/-- Foam `magSqr` of a vector. -/
def magSqr (v : V3) : ℝ :=
  v.vx ^ 2 + v.vy ^ 2 + v.vz ^ 2

/-- Foam `mag` of a vector: Euclidean norm. -/
def mag (v : V3) : ℝ :=
  Real.sqrt (magSqr v)

/-- Mesh geometry as read by the harness: cell volumes (`mesh.V()`), cell
centroids (`mesh.C()` interior part), and per-patch boundary-face centroids
(`mesh.C().boundaryField()`). -/
structure Mesh where
  vols : List ℝ
  ctrs : List V3
  patches : List (List V3)

/-- A `volScalarField`: interior cell values, per-patch boundary face
values, and the boundary-condition type string it was allocated with. -/
structure SField where
  internal : List ℝ
  boundary : List (List ℝ)
  bcType : String

/-- A `volVectorField`.  Cell values are `Option V3`: `none` marks a value
poisoned by the unguarded division fault (IEEE NaN in the source). -/
structure VField where
  internal : List (Option V3)
  boundary : List (List (Option V3))
  bcType : String

/-- `gSum(vols * vals)`: the elementwise-product reduction used for all the
harness's integrals (source lines 118, 152, 171, 724, 814, 815). -/
def gSumProd (vols vals : List ℝ) : ℝ :=
  ((vols.zip vals).map (fun p => p.1 * p.2)).sum

/-- `gSum(mesh.V() * field.internalField())`: the conservation integral.
Only the interior values enter; the boundary part of the field is never
read. -/
def integral (m : Mesh) (f : SField) : ℝ :=
  gSumProd m.vols f.internal

/-- Auxiliary: `gSumProd` as an indexed sum over cell indices. -/
theorem gSumProd_eq_sum (vols vals : List ℝ) (h : vals.length = vols.length) :
    gSumProd vols vals =
      (Finset.range vols.length).sum (fun i => vols.getD i 0 * vals.getD i 0) := by
  induction vols generalizing vals with
  | nil =>
      have : vals = [] := List.length_eq_zero.mp h
      subst this
      simp [gSumProd]
  | cons v vs ih =>
      cases vals with
      | nil => simp at h
      | cons a as =>
          have h' : as.length = vs.length := by
            simpa using h
          have hsum := ih as h'
          simp only [gSumProd, List.zip_cons_cons, List.map_cons, List.sum_cons]
            at hsum ⊢
          rw [List.length_cons, Finset.sum_range_succ']
          simp only [List.getD_cons_succ, List.getD_cons_zero]
          rw [← hsum]
          ring

/-- `const scalar constScalVal = 2.0` (source line 56). -/
def constScalVal : ℝ := 2

/-- Hill centre `vector hC(0,0,0)` (source lines 198, 372, 547). -/
def hC : V3 := ⟨0, 0, 0⟩

/-- Length scale `scalar L = 0.5 * Foam::sqrt(2.0)` (source lines 199, 373, 548). -/
def lenL : ℝ := 0.5 * Real.sqrt 2

/-- Modelled from the spec: the scalar formulas of the AnalyticFieldModel
table in section 4.1, one per `TestFieldKind` (CONSTANT = 0, LINEAR = 1,
SINUSOID_2D = 2, SINUSOID_3D = 3, COSINE_HILL_2D = 4).  This definition is
the reference the three independent dispatch sites of the source
(`initTestField`, `initBoundaryFields`, `computeError`) are compared with. -/
def specScalarModel (t : ℕ) (x : V3) : ℝ :=
  match t with
  | 0 => 2
  | 1 => 2 * x.vx + 3 * x.vy + x.vz
  | 2 => 1 + Real.sin (2 * Real.pi * x.vx) * Real.sin (2 * Real.pi * x.vy)
  | 3 => 1 + Real.sin (2 * Real.pi * x.vx) * Real.sin (2 * Real.pi * x.vy)
          * Real.sin (2 * Real.pi * x.vz)
  | 4 => 2 + Real.cos (Real.pi * mag (V3.sub x hC) / lenL)
  | _ => 0

/-- `initTestField` LINEAR interior value (source line 397). -/
def itfLin (x : V3) : ℝ := 2 * x.vx + 3 * x.vy + x.vz

/-- `initTestField` SINUSOID_2D interior value (source lines 411–416). -/
def itfSin2 (x : V3) : ℝ :=
  1 + Real.sin (2 * Real.pi * x.vx) * Real.sin (2 * Real.pi * x.vy)

/-- `initTestField` SINUSOID_2D interior gradient (source lines 418–426). -/
def itfSin2Grad (x : V3) : V3 :=
  V3.smul (2 * Real.pi)
    ⟨Real.cos (2 * Real.pi * x.vx) * Real.sin (2 * Real.pi * x.vy),
     Real.sin (2 * Real.pi * x.vx) * Real.cos (2 * Real.pi * x.vy),
     0⟩

/-- `initTestField` SINUSOID_3D interior value (source lines 439–445). -/
def itfSin3 (x : V3) : ℝ :=
  1 + Real.sin (2 * Real.pi * x.vx) * Real.sin (2 * Real.pi * x.vy)
    * Real.sin (2 * Real.pi * x.vz)

/-- `initTestField` SINUSOID_3D interior gradient (source lines 447–463). -/
def itfSin3Grad (x : V3) : V3 :=
  V3.smul (2 * Real.pi)
    ⟨Real.cos (2 * Real.pi * x.vx) * Real.sin (2 * Real.pi * x.vy)
      * Real.sin (2 * Real.pi * x.vz),
     Real.sin (2 * Real.pi * x.vx) * Real.cos (2 * Real.pi * x.vy)
      * Real.sin (2 * Real.pi * x.vz),
     Real.sin (2 * Real.pi * x.vx) * Real.sin (2 * Real.pi * x.vy)
      * Real.cos (2 * Real.pi * x.vz)⟩

/-- `initTestField` COSINE_HILL_2D interior value (source line 477). -/
def itfHill (x : V3) : ℝ :=
  2 + Real.cos (Real.pi * mag (V3.sub x hC) / lenL)

/-- The COSINE_HILL_2D gradient assignment of `initTestField` (source lines
475–487): `gfield[cellI] = (pi/(r*L)) * vector(-sin(pi*r/L)*x.x(), ...)`
with `r = mag(x - hC)`.  The division by `r*L` is unguarded in the source;
`none` marks the division-by-zero fault arising at `r = 0`. -/
def cosineHillGrad (x : V3) : Option V3 :=
  let r := mag (V3.sub x hC)
  if r * lenL = 0 then none
  else
    some (V3.smul (Real.pi / (r * lenL))
      ⟨-Real.sin (Real.pi * r / lenL) * x.vx,
       -Real.sin (Real.pi * r / lenL) * x.vy,
       -Real.sin (Real.pi * r / lenL) * x.vz⟩)

/-- Allocation of the scalar test field `alpha` (source lines 330–346): a
zero field over the mesh with boundary type `fixedValue`. -/
def allocS (m : Mesh) : SField :=
  { internal := m.ctrs.map (fun _ => 0)
    boundary := m.patches.map (fun p => p.map (fun _ => 0))
    bcType := "fixedValue" }

/-- Allocation of the gradient test field `grad(alpha)` (source lines
348–364): a zero vector field over the mesh with boundary type
`zeroGradient`. -/
def allocV (m : Mesh) : VField :=
  { internal := m.ctrs.map (fun _ => some (⟨0, 0, 0⟩ : V3))
    boundary := m.patches.map (fun p => p.map (fun _ => some (⟨0, 0, 0⟩ : V3)))
    bcType := "zeroGradient" }

/-- `initBoundaryFields` LINEAR boundary value (source lines 225–228). -/
def ibfLin (x : V3) : ℝ := 2 * x.vx + 3 * x.vy + x.vz

/-- `initBoundaryFields` SINUSOID_2D boundary value (source lines 243–248). -/
def ibfSin2 (x : V3) : ℝ :=
  1 + Real.sin (2 * Real.pi * x.vx) * Real.sin (2 * Real.pi * x.vy)

/-- `initBoundaryFields` SINUSOID_3D boundary value (source lines 263–269). -/
def ibfSin3 (x : V3) : ℝ :=
  1 + Real.sin (2 * Real.pi * x.vx) * Real.sin (2 * Real.pi * x.vy)
    * Real.sin (2 * Real.pi * x.vz)

/-- `initBoundaryFields` COSINE_HILL_2D boundary value (source lines
282–287): `2 + cos(pi*r/L)` with `r = mag(faceCentre - hC)`. -/
def ibfHill (x : V3) : ℝ :=
  2 + Real.cos (Real.pi * mag (V3.sub x hC) / lenL)

/-- `initBoundaryFields` (source lines 185–310): overwrites every boundary
face value of the scalar field from the per-kind formula evaluated at the
face centroid; the `default` switch case aborts with
`FatalErrorIn(...initBoundaryFields...) << "Unknown enumerant for initialisation."`. -/
def initBoundaryFields (m : Mesh) (t : ℕ) (f : SField) : Except String SField :=
  match t with
  | 0 => .ok (SField.mk f.internal
      (m.patches.map (fun p => p.map (fun _ => constScalVal))) f.bcType)
  | 1 => .ok (SField.mk f.internal
      (m.patches.map (fun p => p.map ibfLin)) f.bcType)
  | 2 => .ok (SField.mk f.internal
      (m.patches.map (fun p => p.map ibfSin2)) f.bcType)
  | 3 => .ok (SField.mk f.internal
      (m.patches.map (fun p => p.map ibfSin3)) f.bcType)
  | 4 => .ok (SField.mk f.internal
      (m.patches.map (fun p => p.map ibfHill)) f.bcType)
  | _ => .error ("initBoundaryFields: Unknown enumerant for initialisation.")

/-- The interior populate switch of `initTestField` (source lines 376–508):
per valid kind, the list of interior scalar values and interior gradient
values over the cell centroids; `none` for the fatal `default` case. -/
def interiorPopulate (t : ℕ) (ctrs : List V3) :
    Option (List ℝ × List (Option V3)) :=
  match t with
  | 0 => some
      (ctrs.map (fun _ => constScalVal),
       ctrs.map (fun _ => some (⟨0, 0, 0⟩ : V3)))
  | 1 => some
      (ctrs.map itfLin,
       ctrs.map (fun _ => some (⟨2, 3, 1⟩ : V3)))
  | 2 => some
      (ctrs.map itfSin2,
       ctrs.map (fun x => some (itfSin2Grad x)))
  | 3 => some
      (ctrs.map itfSin3,
       ctrs.map (fun x => some (itfSin3Grad x)))
  | 4 => some
      (ctrs.map itfHill,
       ctrs.map (fun x => cosineHillGrad x))
  | _ => none

/-- `initTestField` (source lines 314–513): always allocates the scalar and
gradient fields; when `populate` is set it fills the interiors from the
per-kind switch (fatal `default` case for an unknown enumerant) and then
calls `initBoundaryFields`; when `populate` is not set it returns the
zero-filled allocations untouched. -/
def initTestField (m : Mesh) (t : ℕ) (populate : Bool) :
    Except String (SField × VField) :=
  let f0 := allocS m
  let g0 := allocV m
  if populate then
    match interiorPopulate t m.ctrs with
    | some (iv, gv) =>
        match initBoundaryFields m t { f0 with internal := iv } with
        | .ok fb => .ok (fb, { g0 with internal := gv })
        | .error e => .error e
    | none => .error ("initTestField: Unknown enumerant for initialisation.")
  else .ok (f0, g0)

/-- Accumulator state of the per-cell loops of `computeError`: the running
squared-error sum (`sError`/`tError`), the running maximum absolute error
(`smError`/`tmError`) and the current value of the `sExact`/`tExact`
variable, which the switch only assigns for recognized kinds. -/
structure ErrAcc where
  err : ℝ
  mErr : ℝ
  exact : ℝ

/-- `computeError` LINEAR exact value (source lines 566, 625). -/
def ceLin (x : V3) : ℝ := 2 * x.vx + 3 * x.vy + x.vz

/-- `computeError` SINUSOID_2D exact value (source lines 573–578, 632–637). -/
def ceSin2 (x : V3) : ℝ :=
  1 + Real.sin (2 * Real.pi * x.vx) * Real.sin (2 * Real.pi * x.vy)

/-- `computeError` SINUSOID_3D exact value (source lines 585–591, 644–650). -/
def ceSin3 (x : V3) : ℝ :=
  1 + Real.sin (2 * Real.pi * x.vx) * Real.sin (2 * Real.pi * x.vy)
    * Real.sin (2 * Real.pi * x.vz)

/-- `computeError` COSINE_HILL_2D exact value (source lines 598–600,
657–659). -/
def ceHill (x : V3) : ℝ :=
  2 + Real.cos (Real.pi * mag (V3.sub x hC) / lenL)

/-- The exact-value switch of `computeError` (source lines 555–604 and
614–663): for the five recognized kinds it assigns the analytic value at
the cell centroid; it has no `default` case, so an unrecognized kind leaves
the variable at its previous value. -/
def exactStep (t : ℕ) (x : V3) (prev : ℝ) : ℝ :=
  match t with
  | 0 => constScalVal
  | 1 => ceLin x
  | 2 => ceSin2 x
  | 3 => ceSin3 x
  | 4 => ceHill x
  | _ => prev

/-- One per-cell pass of `computeError` (source lines 551–608 / 610–669):
for each (centroid, value) pair compute the exact value via the switch,
accumulate the squared error (`magSqr`) and the maximum absolute error
(`Foam::max(...,mag(...))`). -/
def errLoop (t : ℕ) : List (V3 × ℝ) → ErrAcc → ErrAcc
  | [], a => a
  | (x, v) :: rest, a =>
      let e := exactStep t x a.exact
      errLoop t rest ⟨a.err + (v - e) ^ 2, max a.mErr |v - e|, e⟩

/-- The report `computeError` prints for one field (source lines 671–693). -/
structure ErrReport where
  l2 : ℝ
  linf : ℝ
  dx : ℝ
  n : ℕ

/-- `Foam::cbrt` on the nonnegative arguments the harness feeds it. -/
def cbrt (x : ℝ) : ℝ := x ^ ((1 : ℝ) / 3)

/-- The analysis `computeError` performs on one field (it performs it twice,
once for the source and once for the target): run the per-cell loop from a
zero-initialized accumulator, then report `sqrt(err/n)`, the running
maximum, and `cbrt(1/n)` (source lines 541–549, 551–608, 671–683). -/
def analyzeOne (t : ℕ) (ctrs : List V3) (vals : List ℝ) : ErrReport :=
  let a := errLoop t (ctrs.zip vals) ⟨0, 0, 0⟩
  { l2 := Real.sqrt (a.err / (vals.length : ℝ))
    linf := a.mErr
    dx := cbrt (1 / (vals.length : ℝ))
    n := vals.length }

/-- `computeError` (source lines 517–694): analyzes the source field against
the source-mesh centroids and the target field against the target-mesh
centroids, with the same kind. -/
def computeError (sCtrs tCtrs : List V3) (fS fT : SField) (t : ℕ) :
    ErrReport × ErrReport :=
  (analyzeOne t sCtrs fS.internal, analyzeOne t tCtrs fT.internal)

/-- The external `conservativeMeshToMesh` operator as the harness sees it:
`interpInto tgt src method` is the three-argument in-place
`interpolate(fieldTarget, fieldSource, method)` (result = mutated target),
and `interpFresh src method` is the returning form
`interpolate(fieldSource, method)` used to construct a new target field. -/
structure MapperExt where
  interpInto : SField → SField → ℕ → SField
  interpFresh : SField → ℕ → SField

/-- The persisted state of the target-field IOobject: whether `headerOk()`
holds and, if so, the field that would be read. -/
structure TargetDesc where
  headerOk : Bool
  stored : SField

/-- Observable outcome of one iteration of the `MapConservativeVolFields`
loop for one field. -/
structure RemapOut where
  usedExisting : Bool
  freshNoRead : Bool
  result : SField
  intSource : ℝ
  intTarget : ℝ
  written : SField

/-- The per-field body of `MapConservativeVolFields` (source lines 108–179):
compute the source integral, then either (header OK) read the stored target
field and interpolate into it in place, or (otherwise) tag the IOobject
`NO_READ` and build the target field from the interpolation of the source;
in both branches compute the target integral and write the result. -/
def mapOneField (ext : MapperExt) (mS mT : Mesh) (desc : TargetDesc)
    (src : SField) (method : ℕ) : RemapOut :=
  let intS := integral mS src
  if desc.headerOk then
    let tgt := ext.interpInto desc.stored src method
    { usedExisting := true
      freshNoRead := false
      result := tgt
      intSource := intS
      intTarget := integral mT tgt
      written := tgt }
  else
    let tgt := ext.interpFresh src method
    { usedExisting := false
      freshNoRead := true
      result := tgt
      intSource := intS
      intTarget := integral mT tgt
      written := tgt }

/-- Observable events of a `testCyclicRemap` run, in program order.
`interpF`/`interpB` record the gradient field handed to the forward
(source→target) and backward (target→source) mapper call. -/
inductive Ev where
  | writeS (f : SField)
  | writeGS (g : VField)
  | interpF (g : VField)
  | interpB (g : VField)
  | bc
  | writeT (f : SField)
  | analyze (s t : SField)
  | reportDrift (d : ℝ)

/-- The mutable field state of `testCyclicRemap`: the source and target
scalar fields and their companion gradient fields. -/
structure CycState where
  fS : SField
  fT : SField
  gS : VField
  gT : VField

/-- One iteration of the cyclic loop (source lines 775–802): map the target
field back to the source mesh using the target gradient, re-assert both
boundary fields, map the source field to the target mesh using the source
gradient, re-assert both boundary fields again.  The interpolation calls
are the opaque `B`/`F` operators. -/
def cycBody (F B : SField → SField → VField → ℕ → SField) (mS mT : Mesh)
    (t method : ℕ) (s : CycState) : Except String (CycState × List Ev) :=
  let fS1 := B s.fS s.fT s.gT method
  match initBoundaryFields mT t s.fT with
  | .error e => .error e
  | .ok fT1 =>
    match initBoundaryFields mS t fS1 with
    | .error e => .error e
    | .ok fS2 =>
      let fT2 := F fT1 fS2 s.gS method
      match initBoundaryFields mT t fT2 with
      | .error e => .error e
      | .ok fT3 =>
        match initBoundaryFields mS t fS2 with
        | .error e => .error e
        | .ok fS3 =>
          .ok (⟨fS3, fT3, s.gS, s.gT⟩,
               [Ev.interpB s.gT, Ev.bc, Ev.interpF s.gS, Ev.bc])

/-- The cyclic loop `for (label i = 1; i < nCycles; i++)` (source lines
775–802), by the number of remaining iterations. -/
def cycLoop (F B : SField → SField → VField → ℕ → SField) (mS mT : Mesh)
    (t method : ℕ) : ℕ → CycState → Except String (CycState × List Ev)
  | 0, s => .ok (s, [])
  | k + 1, s =>
      match cycBody F B mS mT t method s with
      | .error e => .error e
      | .ok (s1, evs1) =>
          match cycLoop F B mS mT t method k s1 with
          | .error e => .error e
          | .ok (s2, evs2) => .ok (s2, evs1 ++ evs2)

/-- Result of a `testCyclicRemap` run: the source integral recorded before
any remapping, the final field state, the observable event trace, and the
conservation drift the run reports at the end. -/
structure CycResult where
  intSourceBefore : ℝ
  final : CycState
  events : List Ev
  drift : ℝ

/-- `testCyclicRemap` (source lines 698–820): build and populate the source
fields, record `intSource = gSum(meshSource.V()*fieldSource)` before any
remapping, write the source fields, build and populate the target fields,
perform the initial source→target map and boundary re-assertions, run the
cyclic loop for the remaining `nCycles - 1` iterations, then write the
final target field, run `computeError`, and report
`mag(intSource - intTarget)` with `intTarget` the integral of the final
target field. -/
def testCyclicRemap (F B : SField → SField → VField → ℕ → SField)
    (mS mT : Mesh) (nCycles t method : ℕ) : Except String CycResult :=
  match initTestField mS t true with
  | .error e => .error e
  | .ok (fS0, gS0) =>
    let intSource := integral mS fS0
    match initTestField mT t true with
    | .error e => .error e
    | .ok (fT0, gT0) =>
      let fT1 := F fT0 fS0 gS0 method
      match initBoundaryFields mT t fT1 with
      | .error e => .error e
      | .ok fT2 =>
        match initBoundaryFields mS t fS0 with
        | .error e => .error e
        | .ok fS1 =>
          match cycLoop F B mS mT t method (nCycles - 1) ⟨fS1, fT2, gS0, gT0⟩ with
          | .error e => .error e
          | .ok (sf, loopEvs) =>
            let intTarget := integral mT sf.fT
            let d := |intSource - intTarget|
            .ok { intSourceBefore := intSource
                  final := sf
                  events :=
                    [Ev.writeS fS0, Ev.writeGS gS0, Ev.interpF gS0, Ev.bc]
                      ++ loopEvs
                      ++ [Ev.writeT sf.fT, Ev.analyze sf.fS sf.fT,
                          Ev.reportDrift d]
                  drift := d }

/-- The CONSTANT value used at every dispatch site agrees with the spec's
AnalyticFieldModel. -/
theorem constSpec : (fun _ : V3 => constScalVal) = specScalarModel 0 := rfl

/-- The LINEAR boundary formula agrees with the spec's AnalyticFieldModel. -/
theorem ibfLin_spec : ibfLin = specScalarModel 1 := rfl

/-- The SINUSOID_2D boundary formula agrees with the spec's model. -/
theorem ibfSin2_spec : ibfSin2 = specScalarModel 2 := rfl

/-- The SINUSOID_3D boundary formula agrees with the spec's model. -/
theorem ibfSin3_spec : ibfSin3 = specScalarModel 3 := rfl

/-- The COSINE_HILL_2D boundary formula agrees with the spec's model. -/
theorem ibfHill_spec : ibfHill = specScalarModel 4 := rfl

/-- The LINEAR interior formula agrees with the spec's AnalyticFieldModel. -/
theorem itfLin_spec : itfLin = specScalarModel 1 := rfl

/-- The SINUSOID_2D interior formula agrees with the spec's model. -/
theorem itfSin2_spec : itfSin2 = specScalarModel 2 := rfl

/-- The SINUSOID_3D interior formula agrees with the spec's model. -/
theorem itfSin3_spec : itfSin3 = specScalarModel 3 := rfl

/-- The COSINE_HILL_2D interior formula agrees with the spec's model. -/
theorem itfHill_spec : itfHill = specScalarModel 4 := rfl

/-- The LINEAR exact-value formula of `computeError` agrees with the spec's
AnalyticFieldModel. -/
theorem ceLin_spec : ceLin = specScalarModel 1 := rfl

/-- The SINUSOID_2D exact-value formula agrees with the spec's model. -/
theorem ceSin2_spec : ceSin2 = specScalarModel 2 := rfl

/-- The SINUSOID_3D exact-value formula agrees with the spec's model. -/
theorem ceSin3_spec : ceSin3 = specScalarModel 3 := rfl

/-- The COSINE_HILL_2D exact-value formula agrees with the spec's model. -/
theorem ceHill_spec : ceHill = specScalarModel 4 := rfl

/-- For every recognized kind, the boundary initializer succeeds and writes
the per-kind analytic formula of the spec's AnalyticFieldModel at every face
centroid, leaving the interior and the boundary-condition type unchanged. -/
theorem initBoundaryFields_ok (m : Mesh) (f : SField) {t : ℕ} (ht : t ≤ 4) :
    initBoundaryFields m t f =
      .ok (SField.mk f.internal
        (m.patches.map (fun p => p.map (specScalarModel t))) f.bcType) := by
  have h5 : t = 0 ∨ t = 1 ∨ t = 2 ∨ t = 3 ∨ t = 4 := by omega
  rcases h5 with rfl | rfl | rfl | rfl | rfl
  · rw [← constSpec]; rfl
  · rw [← ibfLin_spec]; rfl
  · rw [← ibfSin2_spec]; rfl
  · rw [← ibfSin3_spec]; rfl
  · rw [← ibfHill_spec]; rfl

/-- For every recognized kind, the exact-value switch of `computeError`
computes the spec's analytic model, independently of the previous value of
the `sExact`/`tExact` variable. -/
theorem exactStep_model {t : ℕ} (ht : t ≤ 4) (x : V3) (p : ℝ) :
    exactStep t x p = specScalarModel t x := by
  have h5 : t = 0 ∨ t = 1 ∨ t = 2 ∨ t = 3 ∨ t = 4 := by omega
  rcases h5 with rfl | rfl | rfl | rfl | rfl
  · rfl
  · rw [← ceLin_spec]; rfl
  · rw [← ceSin2_spec]; rfl
  · rw [← ceSin3_spec]; rfl
  · rw [← ceHill_spec]; rfl

/-- For an unrecognized kind the exact-value switch of `computeError` has no
case and leaves the variable at its previous value. -/
theorem exactStep_prev {t : ℕ} (ht : 5 ≤ t) (x : V3) (p : ℝ) :
    exactStep t x p = p := by
  obtain ⟨k, rfl⟩ : ∃ k, t = k + 5 := ⟨t - 5, by omega⟩
  rfl

/-- For an unrecognized kind the interior populate switch hits the fatal
default case. -/
theorem interiorPopulate_none {t : ℕ} (ht : 5 ≤ t) (ctrs : List V3) :
    interiorPopulate t ctrs = none := by
  obtain ⟨k, rfl⟩ : ∃ k, t = k + 5 := ⟨t - 5, by omega⟩
  rfl

/-- For an unrecognized kind the boundary initializer aborts. -/
theorem initBoundaryFields_err (m : Mesh) (f : SField) {t : ℕ} (ht : 5 ≤ t) :
    initBoundaryFields m t f =
      .error ("initBoundaryFields: Unknown enumerant for initialisation.") := by
  obtain ⟨k, rfl⟩ : ∃ k, t = k + 5 := ⟨t - 5, by omega⟩
  rfl

/-- For every recognized kind, `initTestField` with `populate = true`
produces the scalar field whose interior and boundary both carry the spec's
analytic model, and a gradient field whose boundary is the untouched
zero allocation. -/
theorem initTestField_pop (m : Mesh) {t : ℕ} (ht : t ≤ 4) :
    ∃ gv : List (Option V3),
      initTestField m t true =
        .ok (SField.mk (m.ctrs.map (specScalarModel t))
               (m.patches.map (fun p => p.map (specScalarModel t))) "fixedValue",
             VField.mk gv ((allocV m).boundary) "zeroGradient")
      ∧ gv.length = m.ctrs.length := by
  have h5 : t = 0 ∨ t = 1 ∨ t = 2 ∨ t = 3 ∨ t = 4 := by omega
  rcases h5 with rfl | rfl | rfl | rfl | rfl
  · refine ⟨m.ctrs.map (fun _ => some (⟨0, 0, 0⟩ : V3)), ?_, by simp⟩
    rw [← constSpec]; rfl
  · refine ⟨m.ctrs.map (fun _ => some (⟨2, 3, 1⟩ : V3)), ?_, by simp⟩
    nth_rewrite 2 [← ibfLin_spec]
    rw [← itfLin_spec]; rfl
  · refine ⟨m.ctrs.map (fun x => some (itfSin2Grad x)), ?_, by simp⟩
    nth_rewrite 2 [← ibfSin2_spec]
    rw [← itfSin2_spec]; rfl
  · refine ⟨m.ctrs.map (fun x => some (itfSin3Grad x)), ?_, by simp⟩
    nth_rewrite 2 [← ibfSin3_spec]
    rw [← itfSin3_spec]; rfl
  · refine ⟨m.ctrs.map (fun x => cosineHillGrad x), ?_, by simp⟩
    nth_rewrite 2 [← ibfHill_spec]
    rw [← itfHill_spec]; rfl

/-- For an unrecognized kind, `initTestField` with `populate = true` aborts
from the fatal default case of its switch. -/
theorem initTestField_err (m : Mesh) {t : ℕ} (ht : 5 ≤ t) :
    initTestField m t true =
      .error ("initTestField: Unknown enumerant for initialisation.") := by
  unfold initTestField
  rw [interiorPopulate_none ht]
  rfl

/-- Zipping a list with its own image lists the graph of the function. -/
theorem zip_self_map {α β : Type} (φ : α → β) (l : List α) :
    l.zip (l.map φ) = l.map (fun x => (x, φ x)) := by
  induction l with
  | nil => rfl
  | cons a as ih => simp [ih]

/-- The seed of a left fold by `max` bounds the fold from below. -/
theorem le_foldl_max (l : List ℝ) (a : ℝ) : a ≤ l.foldl max a := by
  induction l generalizing a with
  | nil => exact le_refl a
  | cons b bs ih => exact le_trans (le_max_left a b) (ih (max a b))

/-- Every member of the list bounds a left fold by `max` from below. -/
theorem mem_le_foldl_max (l : List ℝ) (a : ℝ) :
    ∀ x ∈ l, x ≤ l.foldl max a := by
  induction l generalizing a with
  | nil => intro x hx; cases hx
  | cons b bs ih =>
      intro x hx
      rcases List.mem_cons.mp hx with rfl | hx'
      · exact le_trans (le_max_right a x) (le_foldl_max bs (max a x))
      · exact ih (max a b) x hx'

/-- A left fold by `max` is its seed or one of the list members. -/
theorem foldl_max_eq_or_mem (l : List ℝ) (a : ℝ) :
    l.foldl max a = a ∨ l.foldl max a ∈ l := by
  induction l generalizing a with
  | nil => exact Or.inl rfl
  | cons b bs ih =>
      rcases ih (max a b) with h | h
      · rw [List.foldl_cons, h]
        rcases max_choice a b with h' | h'
        · exact Or.inl h'
        · exact Or.inr (by rw [h']; exact List.mem_cons_self b bs)
      · exact Or.inr (List.mem_cons_of_mem b h)

/-- When the exact-value switch computes a fixed function `φ` of the
centroid, the squared-error accumulator of the `computeError` loop sums the
squared pointwise deviations from `φ`. -/
theorem errLoop_err {t : ℕ} (φ : V3 → ℝ)
    (hstep : ∀ x p, exactStep t x p = φ x) :
    ∀ (pairs : List (V3 × ℝ)) (a : ErrAcc),
      (errLoop t pairs a).err =
        a.err + (pairs.map (fun q => (q.2 - φ q.1) ^ 2)).sum := by
  intro pairs
  induction pairs with
  | nil => intro a; simp [errLoop]
  | cons q rest ih =>
      intro a
      obtain ⟨x, v⟩ := q
      simp only [errLoop, hstep, List.map_cons, List.sum_cons]
      rw [ih]
      dsimp only
      ring

/-- When the exact-value switch computes a fixed function `φ` of the
centroid, the max-error accumulator of the `computeError` loop folds `max`
over the pointwise absolute deviations from `φ`. -/
theorem errLoop_mErr {t : ℕ} (φ : V3 → ℝ)
    (hstep : ∀ x p, exactStep t x p = φ x) :
    ∀ (pairs : List (V3 × ℝ)) (a : ErrAcc),
      (errLoop t pairs a).mErr =
        (pairs.map (fun q => |q.2 - φ q.1|)).foldl max a.mErr := by
  intro pairs
  induction pairs with
  | nil => intro a; simp [errLoop]
  | cons q rest ih =>
      intro a
      obtain ⟨x, v⟩ := q
      simp only [errLoop, hstep, List.map_cons, List.foldl_cons]
      rw [ih]

/-- For an unrecognized kind the exact value stays at the accumulator's
current value, so the squared-error accumulator sums deviations from it. -/
theorem errLoop_prev_err {t : ℕ} (hstep : ∀ x p, exactStep t x p = p) :
    ∀ (pairs : List (V3 × ℝ)) (a : ErrAcc),
      (errLoop t pairs a).err =
        a.err + (pairs.map (fun q => (q.2 - a.exact) ^ 2)).sum := by
  intro pairs
  induction pairs with
  | nil => intro a; simp [errLoop]
  | cons q rest ih =>
      intro a
      obtain ⟨x, v⟩ := q
      simp only [errLoop, hstep, List.map_cons, List.sum_cons]
      rw [ih]
      dsimp only
      ring

/-- For an unrecognized kind the max-error accumulator folds `max` over the
absolute deviations from the accumulator's current exact value. -/
theorem errLoop_prev_mErr {t : ℕ} (hstep : ∀ x p, exactStep t x p = p) :
    ∀ (pairs : List (V3 × ℝ)) (a : ErrAcc),
      (errLoop t pairs a).mErr =
        (pairs.map (fun q => |q.2 - a.exact|)).foldl max a.mErr := by
  intro pairs
  induction pairs with
  | nil => intro a; simp [errLoop]
  | cons q rest ih =>
      intro a
      obtain ⟨x, v⟩ := q
      simp only [errLoop, hstep, List.map_cons, List.foldl_cons]
      rw [ih]

/-- Projecting the second components out of a zip of equal-length lists
maps over the second list. -/
theorem map_snd_zip_eq {α β γ : Type} (f : β → γ) :
    ∀ (l1 : List α) (l2 : List β), l1.length = l2.length →
      (l1.zip l2).map (fun q => f q.2) = l2.map f := by
  intro l1
  induction l1 with
  | nil =>
      intro l2 h
      have : l2 = [] := List.length_eq_zero.mp h.symm
      subst this
      rfl
  | cons a as ih =>
      intro l2 h
      cases l2 with
      | nil => simp at h
      | cons b bs =>
          have h' : as.length = bs.length := by simpa using h
          simp [ih bs h']

/-- C1: for every mesh and scalar field (of matching interior size) the
conservation integral `gSum(mesh.V() * field.internalField())` equals the
sum over all interior cells of cell volume times cell value, and the
boundary values of the field contribute nothing: replacing the whole
boundary (and boundary metadata) leaves the integral unchanged. -/
theorem c1_integral_cells_only (m : Mesh) (f : SField)
    (h : f.internal.length = m.vols.length) :
    integral m f =
      (Finset.range m.vols.length).sum
        (fun i => m.vols.getD i 0 * f.internal.getD i 0)
    ∧ ∀ b bc, integral m (SField.mk f.internal b bc) = integral m f := by
  constructor
  · exact gSumProd_eq_sum m.vols f.internal h
  · intro b bc
    rfl

/-- Two-cell mesh used to witness the integral characterization. -/
def mW1 : Mesh := ⟨[1, 2], [⟨0, 0, 0⟩, ⟨0, 0, 0⟩], []⟩

/-- A two-cell field used to witness the integral characterization. -/
def fW1 : SField := ⟨[3, 4], [], "fixedValue"⟩

/-- Witness for C1 at a concrete two-cell mesh and field. -/
theorem c1_integral_cells_only_witness :
    fW1.internal.length = mW1.vols.length
    ∧ (integral mW1 fW1 =
        (Finset.range mW1.vols.length).sum
          (fun i => mW1.vols.getD i 0 * fW1.internal.getD i 0)
      ∧ ∀ b bc, integral mW1 (SField.mk fW1.internal b bc) = integral mW1 fW1) :=
  ⟨rfl, c1_integral_cells_only mW1 fW1 rfl⟩

/-- C2: at the hill centre `x = hC = (0,0,0)` the radius `r = mag(x - hC)`
is zero, and the COSINE_HILL_2D gradient of `initTestField` performs its
division `pi/(r*L)` with divisor zero: the embedded evaluation faults
(`none`), i.e. the source has no policy guarding the division at `r = 0`. -/
theorem c2_cosine_hill_center_fault : cosineHillGrad ⟨0, 0, 0⟩ = none := by
  have hr : mag (V3.sub (⟨0, 0, 0⟩ : V3) hC) = 0 := by
    simp [mag, magSqr, V3.sub, hC]
  simp [cosineHillGrad, hr]

/-- C3 counterexample: the error analysis of `computeError` does not fail
fast on the unrecognized kind 5.  On a one-cell mesh with field value 1 it
completes normally, silently treating the exact solution as the
uninitialized value 0 and reporting L2 = Linf = 1. -/
theorem c3_counterexample :
    analyzeOne 5 [⟨0, 0, 0⟩] [1] = ErrReport.mk 1 1 1 1 := by
  have h1 : errLoop 5 ([(⟨0, 0, 0⟩ : V3)].zip [(1 : ℝ)]) ⟨0, 0, 0⟩ =
      ⟨0 + ((1 : ℝ) - 0) ^ 2, max 0 |(1 : ℝ) - 0|, 0⟩ := rfl
  simp only [analyzeOne, h1]
  norm_num [cbrt, Real.one_rpow, ErrReport.mk.injEq, Real.sqrt_one]

/-- C3 amended: an unrecognized kind makes the interior initializer and the
boundary initializer abort with the fatal diagnostic `"Unknown enumerant
for initialisation."` naming the operation (though not the numeric kind),
while the error analysis has no default case at all: it completes normally,
leaving the exact value at its initial 0, so it reports the norms of the
raw field values. -/
theorem c3_amended_dispatch (m : Mesh) (f : SField) {t : ℕ} (ht : 5 ≤ t)
    (ctrs : List V3) (vals : List ℝ) (h : ctrs.length = vals.length) :
    initTestField m t true =
      .error ("initTestField: Unknown enumerant for initialisation.")
    ∧ initBoundaryFields m t f =
      .error ("initBoundaryFields: Unknown enumerant for initialisation.")
    ∧ (analyzeOne t ctrs vals).l2 =
        Real.sqrt ((vals.map (fun v => v ^ 2)).sum / (vals.length : ℝ))
    ∧ (analyzeOne t ctrs vals).linf = (vals.map (fun v => |v|)).foldl max 0 := by
  refine ⟨initTestField_err m ht, initBoundaryFields_err m f ht, ?_, ?_⟩
  · have he := errLoop_prev_err (t := t) (fun x p => exactStep_prev ht x p)
      (ctrs.zip vals) ⟨0, 0, 0⟩
    have hm : ((ctrs.zip vals).map (fun q => (q.2 - (0 : ℝ)) ^ 2)).sum =
        (vals.map (fun v => v ^ 2)).sum := by
      rw [show (fun q : V3 × ℝ => (q.2 - (0 : ℝ)) ^ 2)
            = fun q : V3 × ℝ => (fun v : ℝ => (v - 0) ^ 2) q.2 from rfl]
      rw [map_snd_zip_eq (fun v : ℝ => (v - 0) ^ 2) ctrs vals h]
      simp
    simp only [analyzeOne, he, hm, zero_add]
  · have he := errLoop_prev_mErr (t := t) (fun x p => exactStep_prev ht x p)
      (ctrs.zip vals) ⟨0, 0, 0⟩
    have hm : ((ctrs.zip vals).map (fun q => |q.2 - (0 : ℝ)|)) =
        vals.map (fun v => |v|) := by
      rw [show (fun q : V3 × ℝ => |q.2 - (0 : ℝ)|)
            = fun q : V3 × ℝ => (fun v : ℝ => |v - 0|) q.2 from rfl]
      rw [map_snd_zip_eq (fun v : ℝ => |v - 0|) ctrs vals h]
      simp
    simp only [analyzeOne, he, hm]

/-- Witness for the amended C3 at kind 7 on a one-cell analysis. -/
theorem c3_amended_dispatch_witness :
    (5 ≤ 7)
    ∧ ([(⟨0, 0, 0⟩ : V3)].length = [(2 : ℝ)].length)
    ∧ initTestField mW1 7 true =
        .error ("initTestField: Unknown enumerant for initialisation.") :=
  ⟨by norm_num, rfl,
    (c3_amended_dispatch mW1 fW1 (by norm_num) [⟨0, 0, 0⟩] [2] rfl).1⟩

/-- A fold of `max` over a list of zeros from seed zero is zero. -/
theorem foldl_max_zero (l : List ℝ) (hl : ∀ x ∈ l, x = 0) :
    l.foldl max 0 = 0 := by
  rcases foldl_max_eq_or_mem l 0 with h | h
  · exact h
  · exact hl _ h

/-- C5: analyzing a field freshly built by `initTestField` with
`populate = true` against the same kind over the same mesh yields exactly
zero L2 and Linf errors: the builder's interior formulas and the analyzer's
exact-value formulas coincide at every cell centroid. -/
theorem c5_self_consistency (m : Mesh) {t : ℕ} (ht : t ≤ 4)
    (f : SField) (g : VField)
    (hfg : initTestField m t true = .ok (f, g)) :
    (analyzeOne t m.ctrs f.internal).l2 = 0
    ∧ (analyzeOne t m.ctrs f.internal).linf = 0 := by
  obtain ⟨gv, heq, hlen⟩ := initTestField_pop m ht
  have hpair := heq.symm.trans hfg
  injection hpair with hpair'
  injection hpair' with hf hg
  rw [← hf]
  have hzip : m.ctrs.zip (m.ctrs.map (specScalarModel t)) =
      m.ctrs.map (fun x => (x, specScalarModel t x)) :=
    zip_self_map (specScalarModel t) m.ctrs
  have herr := errLoop_err (specScalarModel t) (exactStep_model ht)
    (m.ctrs.map (fun x => (x, specScalarModel t x))) ⟨0, 0, 0⟩
  have hmer := errLoop_mErr (specScalarModel t) (exactStep_model ht)
    (m.ctrs.map (fun x => (x, specScalarModel t x))) ⟨0, 0, 0⟩
  have hcomp0 : ((fun q : V3 × ℝ => (q.2 - specScalarModel t q.1) ^ 2)
      ∘ fun x : V3 => (x, specScalarModel t x)) = fun _ => (0 : ℝ) := by
    funext x
    simp [Function.comp]
  constructor
  · simp only [analyzeOne]
    rw [hzip, herr, List.map_map, hcomp0]
    simp
  · simp only [analyzeOne]
    rw [hzip, hmer]
    apply foldl_max_zero
    intro x hx
    rcases List.mem_map.mp hx with ⟨q, hq, rfl⟩
    rcases List.mem_map.mp hq with ⟨y, _, rfl⟩
    simp

/-- One-cell mesh used to witness the self-consistency and boundary
claims. -/
def mW5 : Mesh := ⟨[1], [⟨0, 0, 0⟩], []⟩

/-- The scalar field `initTestField` builds on `mW5` for the CONSTANT
kind. -/
def fW5 : SField := ⟨[2], [], "fixedValue"⟩

/-- The gradient field `initTestField` builds on `mW5` for the CONSTANT
kind. -/
def gW5 : VField := ⟨[some ⟨0, 0, 0⟩], [], "zeroGradient"⟩

/-- Witness for C5: the CONSTANT kind on the one-cell mesh. -/
theorem c5_self_consistency_witness :
    ((0 : ℕ) ≤ 4)
    ∧ (initTestField mW5 0 true = .ok (fW5, gW5))
    ∧ ((analyzeOne 0 mW5.ctrs fW5.internal).l2 = 0
       ∧ (analyzeOne 0 mW5.ctrs fW5.internal).linf = 0) :=
  ⟨by norm_num, rfl, c5_self_consistency mW5 (by norm_num) fW5 gW5 rfl⟩

/-- `Foam::cbrt (1/1000) = 0.1` over the reals. -/
theorem cbrt_thousandth : cbrt ((1 : ℝ) / 1000) = 1 / 10 := by
  have h : ((1 : ℝ) / 1000) = ((1 : ℝ) / 10) ^ (3 : ℕ) := by norm_num
  rw [cbrt, h, ← Real.rpow_natCast ((1 : ℝ) / 10) 3,
    ← Real.rpow_mul (by norm_num)]
  rw [show ((3 : ℕ) : ℝ) * ((1 : ℝ) / 3) = 1 by norm_num, Real.rpow_one]

/-- C6: for every analysis of a field with a recognized kind, the report of
`computeError` carries `l2 = sqrt(Σ squaredError / nCells)`, `linf` equal to
the maximum per-cell absolute error (it bounds every per-cell error and is
attained at some cell), and `effectiveSpacing = cbrt(1 / nCells)`; in
particular `nCells = 1000` gives spacing exactly `1/10`. -/
theorem c6_error_report (t : ℕ) (ctrs : List V3) (vals : List ℝ)
    (ht : t ≤ 4) (h : ctrs.length = vals.length) (hn : 0 < vals.length) :
    (analyzeOne t ctrs vals).l2 =
      Real.sqrt ((((ctrs.zip vals).map
        (fun q => (q.2 - specScalarModel t q.1) ^ 2)).sum) / (vals.length : ℝ))
    ∧ (∀ e ∈ (ctrs.zip vals).map (fun q => |q.2 - specScalarModel t q.1|),
        e ≤ (analyzeOne t ctrs vals).linf)
    ∧ (analyzeOne t ctrs vals).linf ∈
        (ctrs.zip vals).map (fun q => |q.2 - specScalarModel t q.1|)
    ∧ (analyzeOne t ctrs vals).dx = cbrt (1 / (vals.length : ℝ))
    ∧ (vals.length = 1000 → (analyzeOne t ctrs vals).dx = 1 / 10) := by
  have herr := errLoop_err (specScalarModel t) (exactStep_model ht)
    (ctrs.zip vals) ⟨0, 0, 0⟩
  have hmer := errLoop_mErr (specScalarModel t) (exactStep_model ht)
    (ctrs.zip vals) ⟨0, 0, 0⟩
  have hnil : (ctrs.zip vals).map (fun q => |q.2 - specScalarModel t q.1|) ≠ [] := by
    apply List.ne_nil_of_length_pos
    simpa [List.length_zip, h] using hn
  refine ⟨?_, ?_, ?_, rfl, ?_⟩
  · simp only [analyzeOne, herr, zero_add]
  · intro e he
    simp only [analyzeOne, hmer]
    exact mem_le_foldl_max _ 0 e he
  · simp only [analyzeOne, hmer]
    rcases foldl_max_eq_or_mem
      ((ctrs.zip vals).map (fun q => |q.2 - specScalarModel t q.1|)) 0 with hz | hm
    · obtain ⟨e, he⟩ := List.exists_mem_of_ne_nil _ hnil
      have h1 : e ≤ 0 := hz ▸ mem_le_foldl_max _ 0 e he
      have h2 : 0 ≤ e := by
        rcases List.mem_map.mp he with ⟨q, _, rfl⟩
        exact abs_nonneg _
      rw [hz, ← le_antisymm h1 h2]
      exact he
    · exact hm
  · intro hlen
    have : ((vals.length : ℕ) : ℝ) = 1000 := by rw [hlen]; norm_num
    simp only [analyzeOne, this]
    exact cbrt_thousandth

/-- Witness for C6: a 1000-cell analysis of the CONSTANT kind, whose
effective spacing is exactly one tenth. -/
theorem c6_error_report_witness :
    ((0 : ℕ) ≤ 4)
    ∧ ((List.replicate 1000 (⟨0, 0, 0⟩ : V3)).length =
        (List.replicate 1000 (0 : ℝ)).length)
    ∧ (0 < (List.replicate 1000 (0 : ℝ)).length)
    ∧ (analyzeOne 0 (List.replicate 1000 (⟨0, 0, 0⟩ : V3))
        (List.replicate 1000 (0 : ℝ))).dx = 1 / 10 :=
  ⟨by norm_num,
   by rw [List.length_replicate, List.length_replicate],
   by rw [List.length_replicate]; norm_num,
   (c6_error_report 0 (List.replicate 1000 (⟨0, 0, 0⟩ : V3))
      (List.replicate 1000 (0 : ℝ)) (by norm_num)
      (by rw [List.length_replicate, List.length_replicate])
      (by rw [List.length_replicate]; norm_num)).2.2.2.2
      (by rw [List.length_replicate])⟩

/-- C7: the per-field remap driver takes exactly one of two branches keyed
on the persisted target header: with `headerOk` it loads the stored field
and interpolates into it in place; otherwise it builds the target from the
populate-from-scratch interpolation of the source, tagged not-to-be-read;
in both branches the source and target integrals are the conservation
integrals of the source field and of the resulting target field, and the
resulting field is the one written. -/
theorem c7_remap_driver (ext : MapperExt) (mS mT : Mesh) (desc : TargetDesc)
    (src : SField) (method : ℕ) :
    (mapOneField ext mS mT desc src method).usedExisting = desc.headerOk
    ∧ (mapOneField ext mS mT desc src method).freshNoRead = !desc.headerOk
    ∧ (mapOneField ext mS mT desc src method).result =
        (if desc.headerOk then ext.interpInto desc.stored src method
         else ext.interpFresh src method)
    ∧ (mapOneField ext mS mT desc src method).intSource = integral mS src
    ∧ (mapOneField ext mS mT desc src method).intTarget =
        integral mT (mapOneField ext mS mT desc src method).result
    ∧ (mapOneField ext mS mT desc src method).written =
        (mapOneField ext mS mT desc src method).result := by
  cases hdesc : desc.headerOk <;> simp [mapOneField, hdesc]

/-- Mapping the per-patch lengths of a per-patch map gives the patch
lengths. -/
theorem map_length_patches {α β : Type} (f : α → β) (ps : List (List α)) :
    (ps.map (fun p => p.map f)).map List.length = ps.map List.length := by
  rw [List.map_map]
  apply List.map_congr_left
  intro p _
  simp

/-- C8: the test-field builder always allocates the scalar field with
`fixedValue` boundary metadata and the gradient field with `zeroGradient`
boundary metadata, both sized to the mesh; with `populate = false` it
returns exactly the zero-filled allocations, with no analytic evaluation;
with `populate = true` (recognized kind) the produced fields keep the same
metadata and sizes. -/
theorem c8_builder_allocation (m : Mesh) {t : ℕ} (ht : t ≤ 4) :
    initTestField m t false = .ok (allocS m, allocV m)
    ∧ (allocS m).bcType = "fixedValue"
    ∧ (allocV m).bcType = "zeroGradient"
    ∧ (allocS m).internal.length = m.ctrs.length
    ∧ (allocV m).internal.length = m.ctrs.length
    ∧ (allocS m).boundary.map List.length = m.patches.map List.length
    ∧ (allocV m).boundary.map List.length = m.patches.map List.length
    ∧ (∀ v ∈ (allocS m).internal, v = 0)
    ∧ (∀ v ∈ (allocV m).internal, v = some (⟨0, 0, 0⟩ : V3))
    ∧ (∀ p ∈ (allocS m).boundary, ∀ v ∈ p, v = 0)
    ∧ (∀ p ∈ (allocV m).boundary, ∀ v ∈ p, v = some (⟨0, 0, 0⟩ : V3))
    ∧ (∀ f g, initTestField m t true = .ok (f, g) →
        f.bcType = "fixedValue" ∧ g.bcType = "zeroGradient"
        ∧ f.internal.length = m.ctrs.length
        ∧ g.internal.length = m.ctrs.length
        ∧ f.boundary.map List.length = m.patches.map List.length
        ∧ g.boundary.map List.length = m.patches.map List.length) := by
  refine ⟨rfl, rfl, rfl, by simp [allocS], by simp [allocV],
    map_length_patches _ m.patches, map_length_patches _ m.patches,
    ?_, ?_, ?_, ?_, ?_⟩
  · intro v hv
    rcases List.mem_map.mp hv with ⟨y, _, rfl⟩
    rfl
  · intro v hv
    rcases List.mem_map.mp hv with ⟨y, _, rfl⟩
    rfl
  · intro p hp v hv
    rcases List.mem_map.mp hp with ⟨q, _, rfl⟩
    rcases List.mem_map.mp hv with ⟨y, _, rfl⟩
    rfl
  · intro p hp v hv
    rcases List.mem_map.mp hp with ⟨q, _, rfl⟩
    rcases List.mem_map.mp hv with ⟨y, _, rfl⟩
    rfl
  · intro f g hfg
    obtain ⟨gv, heq, hlen⟩ := initTestField_pop m ht
    have hpair := heq.symm.trans hfg
    injection hpair with hpair'
    injection hpair' with hf hg
    rw [← hf, ← hg]
    exact ⟨rfl, rfl, by simp, by simpa using hlen,
      map_length_patches _ m.patches, map_length_patches _ m.patches⟩

/-- Witness for C8: the one-cell mesh, CONSTANT kind. -/
theorem c8_builder_allocation_witness :
    ((0 : ℕ) ≤ 4) ∧ initTestField mW5 0 false = .ok (allocS mW5, allocV mW5) :=
  ⟨by norm_num, (c8_builder_allocation mW5 (by norm_num)).1⟩

/-- C9: with `populate = true` (recognized kind) every boundary face of
every patch of the scalar field receives the analytic scalar model at the
face centroid, while the gradient field's boundary is exactly the untouched
zero allocation: only the gradient's interior cells are ever written. -/
theorem c9_boundary_populate (m : Mesh) {t : ℕ} (ht : t ≤ 4)
    (f : SField) (g : VField) (hfg : initTestField m t true = .ok (f, g)) :
    f.boundary = m.patches.map (fun p => p.map (specScalarModel t))
    ∧ g.boundary = (allocV m).boundary
    ∧ (∀ p ∈ g.boundary, ∀ v ∈ p, v = some (⟨0, 0, 0⟩ : V3)) := by
  obtain ⟨gv, heq, hlen⟩ := initTestField_pop m ht
  have hpair := heq.symm.trans hfg
  injection hpair with hpair'
  injection hpair' with hf hg
  refine ⟨by rw [← hf], by rw [← hg], ?_⟩
  rw [← hg]
  intro p hp v hv
  rcases List.mem_map.mp hp with ⟨q, _, rfl⟩
  rcases List.mem_map.mp hv with ⟨y, _, rfl⟩
  rfl

/-- Witness for C9: the one-cell mesh, CONSTANT kind. -/
theorem c9_boundary_populate_witness :
    ((0 : ℕ) ≤ 4)
    ∧ initTestField mW5 0 true = .ok (fW5, gW5)
    ∧ fW5.boundary = mW5.patches.map (fun p => p.map (specScalarModel 0))
    ∧ gW5.boundary = (allocV mW5).boundary :=
  ⟨by norm_num, rfl,
   (c9_boundary_populate (t := 0) mW5 (by norm_num) fW5 gW5 rfl).1,
   (c9_boundary_populate (t := 0) mW5 (by norm_num) fW5 gW5 rfl).2.1⟩

/-- The field produced by a successful boundary re-assertion: interior and
boundary-condition type unchanged, boundary overwritten with the analytic
model at the face centroids. -/
def bcS (m : Mesh) (t : ℕ) (f : SField) : SField :=
  SField.mk f.internal (m.patches.map (fun p => p.map (specScalarModel t)))
    f.bcType

/-- `initBoundaryFields` for a recognized kind, packaged through `bcS`. -/
theorem initBoundaryFields_ok' (m : Mesh) (f : SField) {t : ℕ} (ht : t ≤ 4) :
    initBoundaryFields m t f = .ok (bcS m t f) :=
  initBoundaryFields_ok m f ht

/-- One iteration of the cyclic loop for a recognized kind: backward map
with the target gradient, boundary re-assertions, forward map with the
source gradient, boundary re-assertions; the gradient fields pass through
untouched. -/
theorem cycBody_eq (F B : SField → SField → VField → ℕ → SField)
    (mS mT : Mesh) {t : ℕ} (method : ℕ) (ht : t ≤ 4) (s : CycState) :
    cycBody F B mS mT t method s = .ok
      (⟨bcS mS t (bcS mS t (B s.fS s.fT s.gT method)),
        bcS mT t (F (bcS mT t s.fT)
          (bcS mS t (B s.fS s.fT s.gT method)) s.gS method),
        s.gS, s.gT⟩,
       [Ev.interpB s.gT, Ev.bc, Ev.interpF s.gS, Ev.bc]) := by
  simp only [cycBody, initBoundaryFields_ok', ht]

/-- The cyclic loop for a recognized kind always completes; the gradient
components of the state are never written, and every forward (backward)
interpolation event carries the gradient the loop was entered with. -/
theorem cycLoop_ok (F B : SField → SField → VField → ℕ → SField)
    (mS mT : Mesh) {t : ℕ} (method : ℕ) (ht : t ≤ 4) :
    ∀ (k : ℕ) (s : CycState), ∃ s2 evs,
      cycLoop F B mS mT t method k s = .ok (s2, evs)
      ∧ s2.gS = s.gS ∧ s2.gT = s.gT
      ∧ (∀ g, Ev.interpF g ∈ evs → g = s.gS)
      ∧ (∀ g, Ev.interpB g ∈ evs → g = s.gT) := by
  intro k
  induction k with
  | zero =>
      intro s
      exact ⟨s, [], rfl, rfl, rfl, by simp, by simp⟩
  | succ k ih =>
      intro s
      obtain ⟨s2, evs, heq2, hgS, hgT, hF, hB⟩ := ih
        ⟨bcS mS t (bcS mS t (B s.fS s.fT s.gT method)),
         bcS mT t (F (bcS mT t s.fT)
           (bcS mS t (B s.fS s.fT s.gT method)) s.gS method),
         s.gS, s.gT⟩
      refine ⟨s2, [Ev.interpB s.gT, Ev.bc, Ev.interpF s.gS, Ev.bc] ++ evs,
        ?_, hgS, hgT, ?_, ?_⟩
      · simp only [cycLoop, cycBody_eq F B mS mT method ht, heq2]
      · intro g hg
        rcases List.mem_append.mp hg with h4 | hrest
        · simp at h4
          exact h4
        · exact hF g hrest
      · intro g hg
        rcases List.mem_append.mp hg with h4 | hrest
        · simp at h4
          exact h4
        · exact hB g hrest

/-- Dropping the last three elements of a list that ends in three given
elements recovers the prefix. -/
theorem take_append_3 {α : Type} (X : List α) (a b c : α) :
    (X ++ [a, b, c]).take ((X ++ [a, b, c]).length - 3) = X := by
  have h1 : (X ++ [a, b, c]).length - 3 = X.length := by
    simp [List.length_append]
  rw [h1, List.take_left]

/-- C4: whenever a cyclic run completes, the conservation drift it reports
is the absolute difference between the source integral recorded before any
remapping (the integral of the freshly populated source field) and the
integral of the final target field, and the event trace ends with writing
the final target field, analyzing it against the analytic solution, and
only then reporting that drift. -/
theorem c4_cyclic_drift (F B : SField → SField → VField → ℕ → SField)
    (mS mT : Mesh) (n method : ℕ) {t : ℕ} (ht : t ≤ 4)
    (fS0 : SField) (gS0 : VField) (fT0 : SField) (gT0 : VField)
    (hS : initTestField mS t true = .ok (fS0, gS0))
    (hT : initTestField mT t true = .ok (fT0, gT0))
    (res : CycResult)
    (hres : testCyclicRemap F B mS mT n t method = .ok res) :
    res.intSourceBefore = integral mS fS0
    ∧ res.drift = |res.intSourceBefore - integral mT res.final.fT|
    ∧ res.events = res.events.take (res.events.length - 3) ++
        [Ev.writeT res.final.fT, Ev.analyze res.final.fS res.final.fT,
         Ev.reportDrift res.drift] := by
  obtain ⟨sf, evs, heqL, hgS, hgT, hF, hB⟩ := cycLoop_ok F B mS mT method ht
    (n - 1)
    ⟨bcS mS t fS0, bcS mT t (F fT0 fS0 gS0 method), gS0, gT0⟩
  have hrun : testCyclicRemap F B mS mT n t method = .ok
      { intSourceBefore := integral mS fS0
        final := sf
        events := [Ev.writeS fS0, Ev.writeGS gS0, Ev.interpF gS0, Ev.bc]
          ++ evs
          ++ [Ev.writeT sf.fT, Ev.analyze sf.fS sf.fT,
              Ev.reportDrift |integral mS fS0 - integral mT sf.fT|]
        drift := |integral mS fS0 - integral mT sf.fT| } := by
    simp only [testCyclicRemap, hS, hT, initBoundaryFields_ok', ht, heqL]
  rw [hrun] at hres
  injection hres with hres'
  subst hres'
  refine ⟨rfl, rfl, ?_⟩
  dsimp only
  rw [take_append_3]

/-- Witness mapper: in-place interpolation that keeps the target field. -/
def trivialOp : SField → SField → VField → ℕ → SField :=
  fun tgt _ _ _ => tgt

/-- The result of a one-cycle cyclic run of the CONSTANT kind on the
one-cell mesh with the trivial mapper. -/
def cycResW : CycResult :=
  { intSourceBefore := integral mW5 fW5
    final := ⟨fW5, fW5, gW5, gW5⟩
    events := [Ev.writeS fW5, Ev.writeGS gW5, Ev.interpF gW5, Ev.bc,
               Ev.writeT fW5, Ev.analyze fW5 fW5,
               Ev.reportDrift |integral mW5 fW5 - integral mW5 fW5|]
    drift := |integral mW5 fW5 - integral mW5 fW5| }

/-- Witness for C4: the one-cycle run of the CONSTANT kind on the one-cell
mesh. -/
theorem c4_cyclic_drift_witness :
    ((0 : ℕ) ≤ 4)
    ∧ initTestField mW5 0 true = .ok (fW5, gW5)
    ∧ testCyclicRemap trivialOp trivialOp mW5 mW5 1 0 0 = .ok cycResW
    ∧ (cycResW.intSourceBefore = integral mW5 fW5
      ∧ cycResW.drift =
          |cycResW.intSourceBefore - integral mW5 cycResW.final.fT|
      ∧ cycResW.events = cycResW.events.take (cycResW.events.length - 3) ++
          [Ev.writeT cycResW.final.fT,
           Ev.analyze cycResW.final.fS cycResW.final.fT,
           Ev.reportDrift cycResW.drift]) :=
  ⟨by norm_num, rfl, rfl,
   c4_cyclic_drift (t := 0) trivialOp trivialOp mW5 mW5 1 0 (by norm_num)
     fW5 gW5 fW5 gW5 rfl rfl cycResW rfl⟩

/-- C10: whenever a cyclic run completes, the gradient fields of the final
state are exactly the ones the initial field construction built from the
analytic model, and every forward (backward) interpolation event across all
cycles received that same initial source (target) gradient field: the
gradients are never recomputed or re-asserted. -/
theorem c10_gradient_frame (F B : SField → SField → VField → ℕ → SField)
    (mS mT : Mesh) (n method : ℕ) {t : ℕ} (ht : t ≤ 4)
    (fS0 : SField) (gS0 : VField) (fT0 : SField) (gT0 : VField)
    (hS : initTestField mS t true = .ok (fS0, gS0))
    (hT : initTestField mT t true = .ok (fT0, gT0))
    (res : CycResult)
    (hres : testCyclicRemap F B mS mT n t method = .ok res) :
    res.final.gS = gS0 ∧ res.final.gT = gT0
    ∧ (∀ g, Ev.interpF g ∈ res.events → g = gS0)
    ∧ (∀ g, Ev.interpB g ∈ res.events → g = gT0) := by
  obtain ⟨sf, evs, heqL, hgS, hgT, hF, hB⟩ := cycLoop_ok F B mS mT method ht
    (n - 1)
    ⟨bcS mS t fS0, bcS mT t (F fT0 fS0 gS0 method), gS0, gT0⟩
  have hrun : testCyclicRemap F B mS mT n t method = .ok
      { intSourceBefore := integral mS fS0
        final := sf
        events := [Ev.writeS fS0, Ev.writeGS gS0, Ev.interpF gS0, Ev.bc]
          ++ evs
          ++ [Ev.writeT sf.fT, Ev.analyze sf.fS sf.fT,
              Ev.reportDrift |integral mS fS0 - integral mT sf.fT|]
        drift := |integral mS fS0 - integral mT sf.fT| } := by
    simp only [testCyclicRemap, hS, hT, initBoundaryFields_ok', ht, heqL]
  rw [hrun] at hres
  injection hres with hres'
  subst hres'
  refine ⟨hgS, hgT, ?_, ?_⟩
  · intro g hg
    dsimp only at hg
    rcases List.mem_append.mp hg with hg1 | hg3
    · rcases List.mem_append.mp hg1 with hg4 | hgevs
      · simp at hg4
        exact hg4
      · exact hF g hgevs
    · simp at hg3
  · intro g hg
    dsimp only at hg
    rcases List.mem_append.mp hg with hg1 | hg3
    · rcases List.mem_append.mp hg1 with hg4 | hgevs
      · simp at hg4
      · exact hB g hgevs
    · simp at hg3

/-- Witness for C10: the one-cycle run of the CONSTANT kind on the one-cell
mesh; the final gradients are the initial analytic ones. -/
theorem c10_gradient_frame_witness :
    ((0 : ℕ) ≤ 4)
    ∧ initTestField mW5 0 true = .ok (fW5, gW5)
    ∧ testCyclicRemap trivialOp trivialOp mW5 mW5 1 0 0 = .ok cycResW
    ∧ cycResW.final.gS = gW5
    ∧ cycResW.final.gT = gW5 :=
  ⟨by norm_num, rfl, rfl,
   (c10_gradient_frame (t := 0) trivialOp trivialOp mW5 mW5 1 0 (by norm_num)
     fW5 gW5 fW5 gW5 rfl rfl cycResW rfl).1,
   (c10_gradient_frame (t := 0) trivialOp trivialOp mW5 mW5 1 0 (by norm_num)
     fW5 gW5 fW5 gW5 rfl rfl cycResW rfl).2.1⟩

end MapCons

end
